import Mathlib

/-!
# NaT: username search, case inversion and word-set similarity

A shallow embedding of `src/NaT.go` (package `main`) and the properties of its
username-search core (`worker`, `InvertCase`, `runUsernameSearch`) and of
`calculateJaccardSimilarity`.

Conventions of the embedding.

* A Go `string` is embedded as the sequence of runes that `for _, r := range s`
  yields, i.e. as a Lean `String` (a list of Unicode scalar values); a rune is a
  `Char`.  Every valid UTF-8 Go string is represented exactly.
* Go's standard library is not part of the repository.  The fast paths of
  `unicode.IsUpper`, `unicode.ToUpper`, `unicode.ToLower` (ASCII / Latin-1) are
  embedded as they are written in the `unicode` package; the Unicode tables
  consulted beyond the fast paths are a parameter `UnicodeData`, so that every
  universally quantified theorem holds for whatever the tables contain.
* Network, clock and file system are inputs: the outcome of one HTTP probe is
  a `Probe` value, the elapsed time a number of milliseconds, the failure of
  `os.Create` an optional error text.
* Goroutines and unbuffered channels of `runUsernameSearch` are embedded as a
  state machine (`Pool`, `step`) whose events are the channel communications.
* A finite `float64` is embedded as the rational number it denotes, and the
  `float64` operations as the exact operation followed by rounding to nearest,
  ties to even, on 53 bits (`float64Round`).
-/

namespace NaT

/-! ## Go standard library: `unicode`, `strings`, `fmt` -/

/-- Tables of Go's `unicode` package that are consulted beyond the Latin-1 and
ASCII fast paths.  They are data of the standard library, not of the repository,
and are taken as a parameter. -/
structure UnicodeData where
  /-- membership in `unicode.Upper` (category Lu), used for runes above `MaxLatin1` -/
  upperTable : Char → Bool
  /-- membership in `unicode.Letter` (category L), used for runes above `MaxLatin1` -/
  letterTable : Char → Bool
  /-- the result of `To(UpperCase, r)` over `unicode.CaseRanges`, used for runes above `MaxASCII` -/
  upperCase : Char → Char
  /-- the result of `To(LowerCase, r)` over `unicode.CaseRanges`, used for runes above `MaxASCII` -/
  lowerCase : Char → Char

/-- Constant `unicode.MaxASCII`. -/
def MaxASCII : Nat := 0x7F

/-- Constant `unicode.MaxLatin1`. -/
def MaxLatin1 : Nat := 0xFF

/-- Latin-1 runes whose entry in `unicode.properties` has the bits `pLu`:
`A`..`Z`, U+00C0..U+00D6 and U+00D8..U+00DE. -/
def latin1Upper (r : Char) : Bool :=
  decide (('A'.toNat ≤ r.toNat ∧ r.toNat ≤ 'Z'.toNat) ∨ (0xC0 ≤ r.toNat ∧ r.toNat ≤ 0xD6)
    ∨ (0xD8 ≤ r.toNat ∧ r.toNat ≤ 0xDE))

/-- Latin-1 runes whose entry in `unicode.properties` has a letter bit (`pLmask`):
`A`..`Z`, `a`..`z`, U+00AA, U+00B5, U+00BA, U+00C0..U+00D6, U+00D8..U+00F6,
U+00F8..U+00FF. -/
def latin1Letter (r : Char) : Bool :=
  decide (('A'.toNat ≤ r.toNat ∧ r.toNat ≤ 'Z'.toNat) ∨ ('a'.toNat ≤ r.toNat ∧ r.toNat ≤ 'z'.toNat)
    ∨ r.toNat = 0xAA ∨ r.toNat = 0xB5 ∨ r.toNat = 0xBA
    ∨ (0xC0 ≤ r.toNat ∧ r.toNat ≤ 0xD6) ∨ (0xD8 ≤ r.toNat ∧ r.toNat ≤ 0xF6)
    ∨ (0xF8 ≤ r.toNat ∧ r.toNat ≤ 0xFF))

/-- Go `unicode.IsUpper`: the `properties` table up to `MaxLatin1`, the range
table `Upper` beyond. -/
def unicodeIsUpper (U : UnicodeData) (r : Char) : Bool :=
  if r.toNat ≤ MaxLatin1 then latin1Upper r else U.upperTable r

/-- Go `unicode.IsLetter`: the `properties` table up to `MaxLatin1`, the range
table `Letter` beyond. -/
def unicodeIsLetter (U : UnicodeData) (r : Char) : Bool :=
  if r.toNat ≤ MaxLatin1 then latin1Letter r else U.letterTable r

/-- Go `unicode.ToUpper`: up to `MaxASCII`, `a`..`z` are moved down by
`'a' - 'A'` and every other rune is returned as it is; beyond, the case tables. -/
def unicodeToUpper (U : UnicodeData) (r : Char) : Char :=
  if r.toNat ≤ MaxASCII then
    if 'a'.toNat ≤ r.toNat ∧ r.toNat ≤ 'z'.toNat then Char.ofNat (r.toNat - ('a'.toNat - 'A'.toNat))
    else r
  else U.upperCase r

/-- Go `unicode.ToLower`: up to `MaxASCII`, `A`..`Z` are moved up by
`'a' - 'A'` and every other rune is returned as it is; beyond, the case tables. -/
def unicodeToLower (U : UnicodeData) (r : Char) : Char :=
  if r.toNat ≤ MaxASCII then
    if 'A'.toNat ≤ r.toNat ∧ r.toNat ≤ 'Z'.toNat then Char.ofNat (r.toNat + ('a'.toNat - 'A'.toNat))
    else r
  else U.lowerCase r

/-- Go `strings.ToLower`: every rune is mapped by `unicode.ToLower`. -/
def stringsToLower (U : UnicodeData) (s : String) : String :=
  ⟨s.data.map (unicodeToLower U)⟩

/-- Go `strings.Contains(s, substr)`: `substr` occurs in `s` as a contiguous
block (the empty string occurs in every string). -/
def stringsContains (s substr : String) : Bool :=
  decide (substr.data <:+: s.data)

/-- Expansion of the verbs of a format by `fmt.Sprintf(format, arg)` with one
string operand: the first `%s` is replaced by the operand, a later `%s` has no
operand left and prints `%!s(MISSING)`, `%%` prints a percent sign.  The second
argument is the operand while it is unused. -/
def sprintfVerbs : List Char → Option String → List Char
  | '%' :: 's' :: rest, some arg => arg.data ++ sprintfVerbs rest none
  | '%' :: 's' :: rest, none => "%!s(MISSING)".data ++ sprintfVerbs rest none
  | '%' :: '%' :: rest, arg => '%' :: sprintfVerbs rest arg
  | c :: rest, arg => c :: sprintfVerbs rest arg
  | [], some arg => ("%!(EXTRA string=" ++ arg ++ ")").data
  | [], none => []

/-- Go `fmt.Sprintf(format, arg)` for one string operand and a format whose
verbs are `%s` and `%%`, which covers every `UrlPattern` of the registry. -/
def sprintfS (format arg : String) : String :=
  ⟨sprintfVerbs format.data (some arg)⟩

/-- Go `fmt.Sprintf("%-12s", s)`: `s` padded with blanks on the right to a width
of twelve runes. -/
def padRight12 (s : String) : String :=
  ⟨s.data ++ List.replicate (12 - s.data.length) ' '⟩

/-! ## Data model (`src/NaT.go`, lines 32–84) -/

/-- Go `type Site struct`. -/
structure Site where
  Name : String
  UrlPattern : String
  NotFoundMarker : String
  deriving DecidableEq, Repr

/-- Go `type Result struct`; `Duration` is the string of the JSON key `duration_ms`. -/
structure Result where
  Site : String
  Username : String
  URL : String
  Found : Bool
  Status : Int
  Reason : String
  Duration : String
  deriving DecidableEq, Repr

/-- Go `type Job struct`. -/
structure Job where
  Site : Site
  Username : String
  deriving DecidableEq, Repr

/-- Go `var sites`: the registry of the thirty probed services, in source order. -/
def sites : List Site := [
  ⟨"Facebook", "https://www.facebook.com/%s", "Content not available right now"⟩,
  ⟨"Twitter", "https://twitter.com/%s", "This account doesn’t exist"⟩,
  ⟨"Instagram", "https://www.instagram.com/%s/", "Sorry, this page isn't available."⟩,
  ⟨"GitHub", "https://github.com/%s", "Not Found"⟩,
  ⟨"Reddit", "https://www.reddit.com/user/%s", "page not found"⟩,
  ⟨"YouTube", "https://www.youtube.com/%s", "This channel does not exist."⟩,
  ⟨"TikTok", "https://www.tiktok.com/@%s", "Page not found"⟩,
  ⟨"Medium", "https://medium.com/@%s", "There is no profile for"⟩,
  ⟨"StackOverflow", "https://stackoverflow.com/users/%s", "Page Not Found"⟩,
  ⟨"LinkedIn", "https://www.linkedin.com/in/%s", "Profile not found"⟩,
  ⟨"Pinterest", "https://www.pinterest.com/%s/", "User not found"⟩,
  ⟨"Telegram", "https://t.me/%s", "User does not exist"⟩,
  ⟨"Snapchat", "https://www.snapchat.com/add/%s", "User not found"⟩,
  ⟨"Tumblr", "https://%s.tumblr.com", "There's nothing here."⟩,
  ⟨"Threads", "https://www.threads.net/@%s", "Sorry, this page isn't available."⟩,
  ⟨"Bluesky", "https://bsky.app/profile/%s", "Profile not found"⟩,
  ⟨"Xing", "https://www.xing.com/profile/%s", "This page is unfortunately not available."⟩,
  ⟨"Quora", "https://www.quora.com/profile/%s", "The page you were looking for could not be found"⟩,
  ⟨"Vimeo", "https://vimeo.com/%s", "404 Not Found"⟩,
  ⟨"Twitch", "https://www.twitch.tv/%s", "Sorry. Unless you’ve got a time machine, that content is unavailable."⟩,
  ⟨"SoundCloud", "https://soundcloud.com/%s", "We can't find that user."⟩,
  ⟨"Spotify", "https://open.spotify.com/user/%s", "Page not found"⟩,
  ⟨"Behance", "https://www.behance.net/%s", "Page Not Found"⟩,
  ⟨"Dribbble", "https://dribbble.com/%s", "Whoops, that page is gone."⟩,
  ⟨"ArtStation", "https://www.artstation.com/%s", "Page not found!"⟩,
  ⟨"DeviantArt", "https://www.deviantart.com/%s", "404 Not Found"⟩,
  ⟨"Flickr", "https://www.flickr.com/people/%s/", "Page not found"⟩,
  ⟨"GitLab", "https://gitlab.com/%s", "User not found"⟩,
  ⟨"Steam", "https://steamcommunity.com/id/%s", "The specified profile could not be found."⟩,
  ⟨"Discord", "https://discord.com/users/%s", ""⟩]

/-! ## `InvertCase` (lines 144–155) -/

/-- Body of the loop of `InvertCase`: an upper-case rune is written lower-cased,
every other rune is written upper-cased. -/
def invertRune (U : UnicodeData) (r : Char) : Char :=
  if unicodeIsUpper U r then unicodeToLower U r else unicodeToUpper U r

/-- Go `InvertCase`: ranges over the runes of `s` and writes the inverted rune
of each to the builder. -/
def InvertCase (U : UnicodeData) (s : String) : String :=
  ⟨s.data.map (invertRune U)⟩

/-- Entries of the Unicode tables used by the concrete evaluations below; every
rune not listed is treated as caseless.  From `UnicodeData.txt` /
`unicode/tables.go`:
* U+212A KELVIN SIGN is in `Upper` and `Letter`, `CaseRanges` has
  `(0x212A, 0x212A, d(0, -8383, 0))`: its lower case is U+006B `k`;
* U+0345 COMBINING GREEK YPOGEGRAMMENI has category Mn (neither in `Upper` nor in
  `Letter`), `CaseRanges` has `(0x0345, 0x0345, d(84, 0, 84))`: its upper case is
  U+0399;
* U+0399 GREEK CAPITAL LETTER IOTA is in `Upper` and `Letter`, `CaseRanges` has
  `(0x0391, 0x03A1, d(0, 32, 0))`: its lower case is U+03B9;
* U+03B9 GREEK SMALL LETTER IOTA is in `Letter`, `CaseRanges` has
  `(0x03B1, 0x03C1, d(-32, 0, -32))`: its upper case is U+0399. -/
def unicodeExcerpt : UnicodeData where
  upperTable r := decide (r.toNat = 0x212A ∨ r.toNat = 0x0399)
  letterTable r := decide (r.toNat = 0x212A ∨ r.toNat = 0x0399 ∨ r.toNat = 0x03B9)
  upperCase r :=
    if r.toNat = 0x0345 then Char.ofNat 0x0399
    else if r.toNat = 0x03B9 then Char.ofNat 0x0399
    else r
  lowerCase r :=
    if r.toNat = 0x212A then Char.ofNat 0x006B
    else if r.toNat = 0x0399 then Char.ofNat 0x03B9
    else r

/-! ## Dispatcher (lines 175–186) -/

/-- The sequence of values the dispatcher goroutine of `runUsernameSearch` sends
on `jobs` before it closes the channel: one job per site for `username`, then,
if `alternative` is set, one job per site for `InvertCase(username)`. -/
def dispatch (U : UnicodeData) (registry : List Site) (username : String) (alternative : Bool) :
    List Job :=
  registry.map (fun s => { Site := s, Username := username })
    ++ (if alternative then
          registry.map (fun s => { Site := s, Username := InvertCase U username })
        else [])

/-! ## `worker` (lines 86–142) -/

/-- What the network gives back for one job, as far as the body of the loop of
`worker` looks at it. -/
inductive Probe where
  /-- `http.NewRequestWithContext` returned the error with this text (line 93) -/
  | requestError (err : String)
  /-- `client.Do` returned the error with this text (line 100) -/
  | sendError (err : String)
  /-- `client.Do` returned a response with this status code; `io.ReadAll` then
  returned `bodyBytes` and the error `readErr` (`none` for `nil`), line 105 -/
  | response (StatusCode : Int) (bodyBytes : String) (readErr : Option String)
  deriving DecidableEq, Repr

/-- Lines 109–128 of `worker`: the values of `found` and `reason` after the
chain of conditionals, from the status code, the lower-cased body and the
marker of the site. -/
def classify (U : UnicodeData) (StatusCode : Int) (body NotFoundMarker : String) : Bool × String :=
  if StatusCode = 200 then
    if NotFoundMarker ≠ "" then
      if !stringsContains body (stringsToLower U NotFoundMarker) then (true, "")
      else (false, "not found marker present")
    else (true, "")
  else if StatusCode = 301 ∨ StatusCode = 302 then (true, "redirect")
  else if StatusCode = 404 then (false, "not found")
  else (false, "status " ++ toString StatusCode)

/-- One iteration of the loop of `worker` (lines 89–138): the result sent on
`results` for job `j` when the probe goes as `p` and `time.Since(start)` is
`elapsedMs` milliseconds at line 137.  The two error paths build their result
without a `Duration`, which leaves the zero value of the field; the error that
`io.ReadAll` returns is dropped by the assignment to `_`. -/
def probeJob (U : UnicodeData) (j : Job) (p : Probe) (elapsedMs : Int) : Result :=
  let url := sprintfS j.Site.UrlPattern j.Username
  match p with
  | .requestError err =>
      { Site := j.Site.Name, Username := j.Username, URL := url, Found := false, Status := 0,
        Reason := err, Duration := "" }
  | .sendError err =>
      { Site := j.Site.Name, Username := j.Username, URL := url, Found := false, Status := 0,
        Reason := err, Duration := "" }
  | .response StatusCode bodyBytes _ =>
      let body := stringsToLower U bodyBytes
      let fr := classify U StatusCode body j.Site.NotFoundMarker
      { Site := j.Site.Name, Username := j.Username, URL := url, Found := fr.1,
        Status := StatusCode, Reason := fr.2, Duration := toString elapsedMs }

/-- Go `worker`, seen from one goroutine: the results it sends for the jobs it
receives, in order; after an error path the loop goes on with the next job
(`continue`). -/
def worker (U : UnicodeData) : List (Job × Probe × Int) → List Result
  | [] => []
  | (j, p, elapsedMs) :: rest => probeJob U j p elapsedMs :: worker U rest

/-! ## Worker pool and collector of `runUsernameSearch` (lines 166–199) -/

/-- Where a worker goroutine stands. -/
inductive WorkerState where
  /-- blocked on the receive of `for j := range jobs` -/
  | idle
  /-- has received `j` and has not yet sent its result -/
  | busy (j : Job)
  /-- has left the loop after `jobs` was closed; `wg.Done()` has run -/
  | exited
  deriving DecidableEq, Repr

/-- State of the goroutines of `runUsernameSearch`.  `jobs` holds the sends the
dispatcher still has to make (the channel is closed once none is left),
`workers` the state of each started worker, `resList` what the collector has
appended so far. -/
structure Pool where
  jobs : List Job
  workers : List WorkerState
  resList : List Result
  deriving DecidableEq, Repr

/-- The communications on the two unbuffered channels. -/
inductive Event where
  /-- worker `w` receives the job the dispatcher is sending -/
  | recv (w : Nat)
  /-- worker `w` ends its probe with outcome `p` after `elapsedMs` milliseconds
  and its send on `results` is received by the collector -/
  | emit (w : Nat) (p : Probe) (elapsedMs : Int)
  /-- worker `w` finds `jobs` closed and returns -/
  | exit (w : Nat)
  deriving DecidableEq, Repr

/-- One communication: `none` when the event is not enabled in the state. -/
def step (U : UnicodeData) (s : Pool) : Event → Option Pool
  | .recv w =>
      match s.jobs, s.workers[w]? with
      | j :: rest, some .idle => some { s with jobs := rest, workers := s.workers.set w (.busy j) }
      | _, _ => none
  | .emit w p elapsedMs =>
      match s.workers[w]? with
      | some (.busy j) =>
          some { s with workers := s.workers.set w .idle,
                        resList := s.resList ++ [probeJob U j p elapsedMs] }
      | _ => none
  | .exit w =>
      match s.jobs, s.workers[w]? with
      | [], some .idle => some { s with workers := s.workers.set w .exited }
      | _, _ => none

/-- A sequence of communications, from the left. -/
def exec (U : UnicodeData) (s : Pool) : List Event → Option Pool
  | [] => some s
  | e :: es =>
      match step U s e with
      | some s' => exec U s' es
      | none => none

/-- The state after lines 166–195: `concurrency` workers started (none when the
count is not positive), the dispatcher about to send its first job, nothing
collected. -/
def initPool (U : UnicodeData) (username : String) (concurrency : Int) (alternative : Bool) : Pool :=
  { jobs := dispatch U sites username alternative,
    workers := List.replicate concurrency.toNat .idle,
    resList := [] }

/-- The condition under which `wg.Wait()` (line 197) returns: every started
worker has run `wg.Done()`. -/
def finished (s : Pool) : Bool :=
  s.workers.all (fun w => decide (w = .exited))

/-! ## Reporter of `runUsernameSearch` (lines 201–253) -/

/-- The text of the raw string printed at lines 212–222, with the newline that
`Println` adds. -/
def banner : String :=
  "\n" ++
  " ███▄    █  ▄▄▄     ▄▄▄█████▓    ▒█████    ██████  ██▓ ███▄    █ ▄▄▄█████▓\n" ++
  " ██ ▀█   █ ▒████▄   ▓  ██▒ ▓▒   ▒██▒  ██▒▒██    ▒ ▓██▒ ██ ▀█   █ ▓  ██▒ ▓▒\n" ++
  "▓██  ▀█ ██▒▒██  ▀█▄ ▒ ▓██░ ▒░   ▒██░  ██▒░ ▓██▄   ▒██▒▓██  ▀█ ██▒▒ ▓██░ ▒░\n" ++
  "▓██▒  ▐▌██▒░██▄▄▄▄██░ ▓██▓ ░    ▒██   ██░  ▒   ██▒░██░▓██▒  ▐▌██▒░ ▓██▓ ░ \n" ++
  "▒██░   ▓██░ ▓█   ▓██▒ ▒██▒ ░    ░ ████▓▒░▒██████▒▒░██░▒██░   ▓██░  ▒██▒ ░ \n" ++
  "░ ▒░   ▒ ▒  ▒▒   ▓▒█░ ▒ ░░      ░ ▒░▒░▒░ ▒ ▒▓▒ ▒ ░░▓  ░ ▒░   ▒ ▒   ▒ ░░   \n" ++
  "░ ░░   ░ ▒░  ▒   ▒▒ ░   ░         ░ ▒ ▒░ ░ ░▒  ░ ░ ▒ ░░ ░░   ░ ▒░    ░    \n" ++
  "   ░   ░ ░   ░   ▒    ░         ░ ░ ░ ▒  ░  ░  ░   ▒ ░   ░   ░ ░   ░      \n" ++
  "         ░       ░  ░               ░ ░        ░   ░           ░          \n" ++
  "         \n"

/-- Line 238: the text appended for a found result. -/
def accountLine (r : Result) : String :=
  "- " ++ padRight12 r.Site ++ " " ++ r.URL

/-- Lines 235–240: the map `foundAccounts` after the loop over `resList`; a key
that was never assigned maps to `none`. -/
def foundAccounts (resList : List Result) : String → Option (List String) :=
  resList.foldl
    (fun m r =>
      if r.Found then
        fun k => if k = r.Username then some ((m r.Username).getD [] ++ [accountLine r]) else m k
      else m)
    (fun _ => none)

/-- Lines 243–250: what is printed for one displayed username. -/
def summarySection (accounts : String → Option (List String)) (u : String) : List String :=
  match accounts u with
  | some lines => ("\nAccounts found for '" ++ u ++ "':\n") :: lines.map (fun acc => acc ++ "\n")
  | none => ["\nNo accounts found for '" ++ u ++ "'.\n"]

/-- Lines 242–251: the sections of all displayed usernames, in order. -/
def summary (accounts : String → Option (List String)) : List String → List String
  | [] => []
  | u :: us => summarySection accounts u ++ summary accounts us

/-- Lines 229–232: the usernames to display. -/
def usernamesToDisplay (U : UnicodeData) (username : String) (alternative : Bool) : List String :=
  [username] ++ (if alternative then [InvertCase U username] else [])

/-- Lines 201–253 of `runUsernameSearch`: what is written to standard output
once `resList` is complete, one entry per print call.  `createErr` is the
error of `os.Create` and `encodeErr` the error of `enc.Encode` (`none` for
`nil`); the latter is assigned to `_`.  Colour escapes and the two empty lines
that the builtin `println` writes to standard error are left out. -/
def report (U : UnicodeData) (resList : List Result) (username output : String)
    (alternative : Bool) (createErr : Option String) (_encodeErr : Option String) : List String :=
  match createErr with
  | some err => ["Could not create file: " ++ err ++ "\n"]
  | none =>
      [banner, "Made By HeJo\n",
        "Searching for usernames: " ++ ", ".intercalate (usernamesToDisplay U username alternative)
          ++ "\n"]
      ++ summary (foundAccounts resList) (usernamesToDisplay U username alternative)
      ++ ["\nAll results have been saved to '" ++ output ++ "'.\n"]

/-- Outcome of a run of `runUsernameSearch`. -/
structure Run where
  resList : List Result
  console : List String
  exitCode : Nat
  deriving DecidableEq, Repr

/-- Go `runUsernameSearch`.  The order of the channel communications
(`schedule`) and the outcomes of the file operations are inputs.  An empty
username prints the usage line and exits with status 1.  Otherwise the pool
runs as scheduled; when `wg.Wait()` returns the collected list is reported.
The result is `none` for a schedule that is not an execution of the pool up to
the return of `wg.Wait()`.  The parameter `timeout` only configures the
client and does not appear. -/
def runUsernameSearch (U : UnicodeData) (username : String) (concurrency : Int) (output : String)
    (alternative : Bool) (schedule : List Event) (createErr encodeErr : Option String) :
    Option Run :=
  if username = "" then
    some { resList := [], console := ["Please provide a username with the -username parameter.\n"],
           exitCode := 1 }
  else
    match exec U (initPool U username concurrency alternative) schedule with
    | some s =>
        if finished s then
          some { resList := s.resList,
                 console := report U s.resList username output alternative createErr encodeErr,
                 exitCode := 0 }
        else none
    | none => none

/-! ## `calculateJaccardSimilarity` (lines 300–313) -/

/-- The priority table of the specification (section 4.3, step 4), written from
its words: from the status code, whether the lower-cased body contains the
lower-cased marker, and whether the marker is non-empty, to `(found, reason)`.
It is compared with `classify`, which is written from the code. -/
def specClassification (statusCode : Int) (bodyContainsMarker markerNonEmpty : Bool) :
    Bool × String :=
  if statusCode = 200 ∧ markerNonEmpty = true ∧ bodyContainsMarker = true then
    (false, "not found marker present")
  else if statusCode = 200 then (true, "")
  else if statusCode = 301 ∨ statusCode = 302 then (true, "redirect")
  else if statusCode = 404 then (false, "not found")
  else (false, "status " ++ toString statusCode)

/-- The `(site name, handle)` pair a job stands for. -/
def jobKey (j : Job) : String × String := (j.Site.Name, j.Username)

/-- The `(site name, handle)` pair a result stands for. -/
def resultKey (r : Result) : String × String := (r.Site, r.Username)

/-- The job a worker holds, as a multiset of keys: one key while it is busy,
none otherwise. -/
def inFlight : WorkerState → Multiset (String × String)
  | .busy j => {jobKey j}
  | _ => 0

/-- Every job of a run is in exactly one place: already collected as a result,
held by a busy worker, or still to be sent by the dispatcher.  This is the
multiset of the keys in the three places. -/
def ledger (s : Pool) : Multiset (String × String) :=
  (s.resList.map resultKey : Multiset (String × String))
    + (s.workers.map inFlight).sum
    + (s.jobs.map jobKey : Multiset (String × String))

/-- Communications a worker still has to take part in regardless of the jobs
left: a busy worker sends and exits, an idle one exits. -/
def stepsOwed : WorkerState → Nat
  | .idle => 1
  | .busy _ => 2
  | .exited => 0

/-- A bound on the number of communications left in a state. -/
def fuel (s : Pool) : Nat :=
  3 * s.jobs.length + (s.workers.map stepsOwed).sum

/-- An exited worker is the sign that the dispatcher has closed `jobs`. -/
def closedIfExited (s : Pool) : Prop :=
  WorkerState.exited ∈ s.workers → s.jobs = []

/-- A schedule for a pool of one worker: worker 0 receives and answers `jobs`
jobs one after the other, each probe going as `p` in `elapsedMs`
milliseconds, and then exits. -/
def oneWorkerSchedule (p : Probe) (elapsedMs : Int) (jobs : Nat) : List Event :=
  (List.replicate jobs [Event.recv 0, Event.emit 0 p elapsedMs]).flatten ++ [Event.exit 0]

/-- On ASCII runes `invertRune` never consults the Unicode tables. -/
theorem invertRune_ascii_indep (U V : UnicodeData) (c : Char) (h : c.toNat ≤ MaxASCII) :
    invertRune U c = invertRune V c := by
  have h1 : c.toNat ≤ MaxLatin1 := by
    simp only [MaxASCII, MaxLatin1] at *
    omega
  simp [invertRune, unicodeIsUpper, unicodeToLower, unicodeToUpper, h, h1]

set_option maxRecDepth 100000 in
/-- The 128 ASCII runes, one by one: the inverted rune is ASCII, inverting twice
gives the rune back, and a rune that is not a letter is not changed. -/
theorem invertRune_ascii_table :
    ∀ n, n < 128 →
      (invertRune unicodeExcerpt (Char.ofNat n)).toNat ≤ MaxASCII ∧
      invertRune unicodeExcerpt (invertRune unicodeExcerpt (Char.ofNat n)) = Char.ofNat n ∧
      (unicodeIsLetter unicodeExcerpt (Char.ofNat n) = false →
        invertRune unicodeExcerpt (Char.ofNat n) = Char.ofNat n) := by
  decide

/-- The facts of `invertRune_ascii_table` for any Unicode tables. -/
theorem invertRune_ascii (U : UnicodeData) (c : Char) (h : c.toNat ≤ MaxASCII) :
    (invertRune U c).toNat ≤ MaxASCII ∧ invertRune U (invertRune U c) = c ∧
      (unicodeIsLetter U c = false → invertRune U c = c) := by
  have hlt : c.toNat < 128 := by
    simp only [MaxASCII] at h
    omega
  have key := invertRune_ascii_table c.toNat hlt
  rw [Char.ofNat_toNat] at key
  obtain ⟨k1, k2, k3⟩ := key
  have e1 : invertRune U c = invertRune unicodeExcerpt c := invertRune_ascii_indep U _ c h
  have e2 : invertRune U (invertRune unicodeExcerpt c) =
      invertRune unicodeExcerpt (invertRune unicodeExcerpt c) := invertRune_ascii_indep U _ _ k1
  have h1 : c.toNat ≤ MaxLatin1 := by
    simp only [MaxASCII, MaxLatin1] at *
    omega
  have e3 : unicodeIsLetter U c = unicodeIsLetter unicodeExcerpt c := by
    simp [unicodeIsLetter, h1]
  refine ⟨by rw [e1]; exact k1, by rw [e1, e2]; exact k2, ?_⟩
  intro hl
  rw [e1]
  exact k3 (by rw [← e3]; exact hl)

/-- `InvertCase` on ASCII text does not depend on the Unicode tables. -/
theorem InvertCase_ascii_indep (U V : UnicodeData) (s : String)
    (h : ∀ c ∈ s.data, c.toNat ≤ MaxASCII) : InvertCase U s = InvertCase V s := by
  unfold InvertCase
  congr 1
  exact List.map_congr_left (fun c hc => invertRune_ascii_indep U V c (h c hc))

/-- C5, as stated, fails: U+212A KELVIN SIGN is upper case and is written as
its lower case `k`; `k` is then written as its upper case `K`, which is not the
Kelvin sign. -/
theorem InvertCase_twice_kelvin :
    InvertCase unicodeExcerpt (InvertCase unicodeExcerpt (String.mk [Char.ofNat 0x212A])) = "K"
      ∧ InvertCase unicodeExcerpt (InvertCase unicodeExcerpt (String.mk [Char.ofNat 0x212A]))
          ≠ String.mk [Char.ofNat 0x212A] := by
  decide

/-- C5 (amended): `InvertCase` is an involution on the strings of ASCII
characters: for every string `s` all of whose characters are at most
`MaxASCII`, `InvertCase(InvertCase(s)) == s`. -/
theorem InvertCase_involutive_ascii (U : UnicodeData) (s : String)
    (h : ∀ c ∈ s.data, c.toNat ≤ MaxASCII) : InvertCase U (InvertCase U s) = s := by
  have hmap : (s.data.map (invertRune U)).map (invertRune U) = s.data := by
    rw [List.map_map]
    calc s.data.map (invertRune U ∘ invertRune U)
        = s.data.map id :=
          List.map_congr_left (fun c hc => (invertRune_ascii U c (h c hc)).2.1)
      _ = s.data := List.map_id _
  show String.mk ((s.data.map (invertRune U)).map (invertRune U)) = s
  rw [hmap]

/-- C5 (amended), at the handle `Bob`. -/
theorem InvertCase_involutive_ascii_witness :
    (∀ c ∈ "Bob".data, c.toNat ≤ MaxASCII)
      ∧ InvertCase unicodeExcerpt (InvertCase unicodeExcerpt "Bob") = "Bob" :=
  ⟨by decide, InvertCase_involutive_ascii unicodeExcerpt "Bob" (by decide)⟩

/-- C6, as stated, fails: U+0345 COMBINING GREEK YPOGEGRAMMENI is not a letter
(`unicode.IsLetter` is false on it) and `InvertCase` changes it, to U+0399. -/
theorem InvertCase_changes_nonletter :
    unicodeIsLetter unicodeExcerpt (Char.ofNat 0x0345) = false
      ∧ InvertCase unicodeExcerpt (String.mk [Char.ofNat 0x0345]) = String.mk [Char.ofNat 0x0399]
      ∧ InvertCase unicodeExcerpt (String.mk [Char.ofNat 0x0345]) ≠ String.mk [Char.ofNat 0x0345] := by
  decide

/-- C6 (amended): for every string `s`, `InvertCase(s)` has as many characters
as `s` and is computed character by character: a character on which
`unicode.IsUpper` holds (an upper-case letter) is replaced by `unicode.ToLower`
of it, every other character (so every lower-case letter) by `unicode.ToUpper`
of it, and an ASCII character that is not a letter is left unchanged.  In
particular `InvertCase("abc123") == "ABC123"`. -/
theorem InvertCase_charwise (U : UnicodeData) (s : String) :
    (InvertCase U s).length = s.length
      ∧ (∀ (i : Nat) (c : Char), s.data[i]? = some c →
          (unicodeIsUpper U c = true → (InvertCase U s).data[i]? = some (unicodeToLower U c))
          ∧ (unicodeIsUpper U c = false → (InvertCase U s).data[i]? = some (unicodeToUpper U c))
          ∧ (c.toNat ≤ MaxASCII → unicodeIsLetter U c = false →
              (InvertCase U s).data[i]? = some c))
      ∧ InvertCase U "abc123" = "ABC123" := by
  refine ⟨?_, ?_, ?_⟩
  · show (s.data.map (invertRune U)).length = s.data.length
    exact List.length_map _ _
  · intro i c hc
    have hget : (InvertCase U s).data[i]? = some (invertRune U c) := by
      show (s.data.map (invertRune U))[i]? = some (invertRune U c)
      rw [List.getElem?_map, hc]
      rfl
    refine ⟨?_, ?_, ?_⟩
    · intro hu
      rw [hget]
      simp [invertRune, hu]
    · intro hu
      rw [hget]
      simp [invertRune, hu]
    · intro ha hl
      rw [hget, (invertRune_ascii U c ha).2.2 hl]
  · rw [InvertCase_ascii_indep U unicodeExcerpt "abc123" (by decide)]
    decide

/-! ## Dispatcher -/

/-- The registry has thirty entries. -/
theorem sites_length : sites.length = 30 := by decide

/-- The dispatched sequence over any registry: its two halves and its length. -/
theorem dispatch_eq (U : UnicodeData) (registry : List Site) (h : String) (alternative : Bool) :
    dispatch U registry h alternative
        = (if alternative then
            registry.map (fun s => Job.mk s h) ++ registry.map (fun s => Job.mk s (InvertCase U h))
           else registry.map (fun s => Job.mk s h))
      ∧ (dispatch U registry h alternative).length
        = if alternative then 2 * registry.length else registry.length := by
  cases alternative
  · simp [dispatch]
  · simp [dispatch]
    omega

/-- C2: for every handle `h` (so for every non-empty one) the jobs the
dispatcher of `runUsernameSearch` sends before it closes `jobs` are, with
`alternative` off, exactly the `R = 30` jobs `(sites[i], h)` in registry order,
and with `alternative` on exactly `2R` jobs, the first `R` being `(sites[i], h)`
and the last `R` being `(sites[i], InvertCase(h))`, both in registry order.  For
`h = "Bob"` every job of the second half carries the handle `"bOB"`. -/
theorem dispatcher_jobs (U : UnicodeData) (h : String) (concurrency : Int) :
    (initPool U h concurrency false).jobs = sites.map (fun s => Job.mk s h)
      ∧ (initPool U h concurrency false).jobs.length = sites.length
      ∧ (initPool U h concurrency true).jobs.length = 2 * sites.length
      ∧ (initPool U h concurrency true).jobs.take sites.length = sites.map (fun s => Job.mk s h)
      ∧ (initPool U h concurrency true).jobs.drop sites.length
          = sites.map (fun s => Job.mk s (InvertCase U h))
      ∧ (∀ (i : Nat) (hi : i < sites.length),
          (initPool U h concurrency false).jobs[i]? = some (Job.mk sites[i] h)
          ∧ (initPool U h concurrency true).jobs[i]? = some (Job.mk sites[i] h)
          ∧ (initPool U h concurrency true).jobs[sites.length + i]?
              = some (Job.mk sites[i] (InvertCase U h)))
      ∧ (∀ j ∈ (initPool U "Bob" concurrency true).jobs.drop sites.length, j.Username = "bOB") := by
  have e0 : (initPool U h concurrency false).jobs = sites.map (fun s => Job.mk s h) := by
    simp [initPool, dispatch]
  have e1 : ∀ h : String, (initPool U h concurrency true).jobs
      = sites.map (fun s => Job.mk s h) ++ sites.map (fun s => Job.mk s (InvertCase U h)) := by
    intro h
    simp [initPool, dispatch]
  have hl : (sites.map (fun s => Job.mk s h)).length = sites.length := List.length_map _ _
  have hbob : InvertCase U "Bob" = "bOB" := by
    rw [InvertCase_ascii_indep U unicodeExcerpt "Bob" (by decide)]
    decide
  refine ⟨e0, ?_, ?_, ?_, ?_, ?_, ?_⟩
  · rw [e0, List.length_map]
  · rw [e1, List.length_append, List.length_map, List.length_map]
    omega
  · rw [e1, ← hl, List.take_left]
  · rw [e1, ← hl, List.drop_left]
  · intro i hi
    refine ⟨?_, ?_, ?_⟩
    · rw [e0, List.getElem?_map, List.getElem?_eq_getElem hi]
      rfl
    · rw [e1, List.getElem?_append_left (by rw [hl]; exact hi), List.getElem?_map,
        List.getElem?_eq_getElem hi]
      rfl
    · rw [e1, ← hl, List.getElem?_append_right (Nat.le_add_right _ _), Nat.add_sub_cancel_left,
        List.getElem?_map, List.getElem?_eq_getElem hi]
      rfl
  · intro j hj
    have hl2 : (sites.map (fun s => Job.mk s "Bob")).length = sites.length := List.length_map _ _
    rw [e1, ← hl2, List.drop_left, hbob] at hj
    obtain ⟨s, _, rfl⟩ := List.mem_map.mp hj
    rfl

/-! ## Worker -/


/-- The chain of conditionals of `worker` computes the priority table of the
specification. -/
theorem classify_eq_spec (U : UnicodeData) (StatusCode : Int) (body marker : String) :
    classify U StatusCode body marker
      = specClassification StatusCode (stringsContains body (stringsToLower U marker))
          (decide (marker ≠ "")) := by
  unfold classify specClassification
  by_cases h200 : StatusCode = 200
  · by_cases hm : marker = ""
    · simp [h200, hm]
    · cases hc : stringsContains body (stringsToLower U marker) <;> simp [h200, hm, hc]
  · simp [h200]

/-- C1: for every received response the result the worker emits has the status of
the response, and its `found` and `reason` are the value of the priority table
of the specification at (status, whether the lower-cased body contains the
lower-cased marker, whether the marker is non-empty), so they depend on nothing
else: status 200 with a non-empty marker occurring in the body gives
`found=false`, `reason="not found marker present"`; any other status 200 gives
`found=true`, `reason=""`; 301 or 302 gives `found=true`, `reason="redirect"`; 404
gives `found=false`, `reason="not found"`; every other status `c` gives
`found=false` and `reason` = `"status "` followed by the decimal rendering of `c`. -/
theorem worker_classification (U : UnicodeData) (j : Job) (StatusCode : Int) (bodyBytes : String)
    (readErr : Option String) (elapsedMs : Int) :
    (probeJob U j (.response StatusCode bodyBytes readErr) elapsedMs).Status = StatusCode
      ∧ ((probeJob U j (.response StatusCode bodyBytes readErr) elapsedMs).Found,
          (probeJob U j (.response StatusCode bodyBytes readErr) elapsedMs).Reason)
        = specClassification StatusCode
            (stringsContains (stringsToLower U bodyBytes) (stringsToLower U j.Site.NotFoundMarker))
            (decide (j.Site.NotFoundMarker ≠ ""))
      ∧ (StatusCode = 200 → j.Site.NotFoundMarker ≠ "" →
          stringsContains (stringsToLower U bodyBytes) (stringsToLower U j.Site.NotFoundMarker) = true →
          (probeJob U j (.response StatusCode bodyBytes readErr) elapsedMs).Found = false
          ∧ (probeJob U j (.response StatusCode bodyBytes readErr) elapsedMs).Reason
              = "not found marker present")
      ∧ (StatusCode = 200 →
          ¬ (j.Site.NotFoundMarker ≠ "" ∧
            stringsContains (stringsToLower U bodyBytes) (stringsToLower U j.Site.NotFoundMarker) = true) →
          (probeJob U j (.response StatusCode bodyBytes readErr) elapsedMs).Found = true
          ∧ (probeJob U j (.response StatusCode bodyBytes readErr) elapsedMs).Reason = "")
      ∧ (StatusCode = 301 ∨ StatusCode = 302 →
          (probeJob U j (.response StatusCode bodyBytes readErr) elapsedMs).Found = true
          ∧ (probeJob U j (.response StatusCode bodyBytes readErr) elapsedMs).Reason = "redirect")
      ∧ (StatusCode = 404 →
          (probeJob U j (.response StatusCode bodyBytes readErr) elapsedMs).Found = false
          ∧ (probeJob U j (.response StatusCode bodyBytes readErr) elapsedMs).Reason = "not found")
      ∧ (StatusCode ≠ 200 → StatusCode ≠ 301 → StatusCode ≠ 302 → StatusCode ≠ 404 →
          (probeJob U j (.response StatusCode bodyBytes readErr) elapsedMs).Found = false
          ∧ (probeJob U j (.response StatusCode bodyBytes readErr) elapsedMs).Reason
              = "status " ++ toString StatusCode) := by
  have hF : (probeJob U j (.response StatusCode bodyBytes readErr) elapsedMs).Found
      = (classify U StatusCode (stringsToLower U bodyBytes) j.Site.NotFoundMarker).1 := rfl
  have hR : (probeJob U j (.response StatusCode bodyBytes readErr) elapsedMs).Reason
      = (classify U StatusCode (stringsToLower U bodyBytes) j.Site.NotFoundMarker).2 := rfl
  rw [hF, hR, classify_eq_spec]
  refine ⟨rfl, rfl, ?_, ?_, ?_, ?_, ?_⟩
  · intro h1 h2 h3
    simp [specClassification, h1, h2, h3]
  · intro h1 h2
    by_cases hm : j.Site.NotFoundMarker = ""
    · simp [specClassification, h1, hm]
    · have : stringsContains (stringsToLower U bodyBytes) (stringsToLower U j.Site.NotFoundMarker) = false := by
        cases hc : stringsContains (stringsToLower U bodyBytes) (stringsToLower U j.Site.NotFoundMarker)
        · rfl
        · exact absurd ⟨hm, hc⟩ h2
      simp [specClassification, h1, hm, this]
  · intro h
    rcases h with h | h <;> simp [specClassification, h]
  · intro h
    simp [specClassification, h]
  · intro h1 h2 h3 h4
    simp [specClassification, h1, h2, h3, h4]

/-- Scenarios A, B and C of the specification, evaluated: status 200 with an
empty marker; status 200 with a body that holds the marker in another case;
status 404. -/
theorem worker_scenarios :
    probeJob unicodeExcerpt (Job.mk ⟨"Discord", "https://discord.com/users/%s", ""⟩ "bob")
        (.response 200 "<html>anything</html>" none) 12
      = { Site := "Discord", Username := "bob", URL := "https://discord.com/users/bob",
          Found := true, Status := 200, Reason := "", Duration := "12" }
    ∧ probeJob unicodeExcerpt (Job.mk ⟨"GitHub", "https://github.com/%s", "Not Found"⟩ "bob")
        (.response 200 "<h1>Page NOT FOUND</h1>" none) 12
      = { Site := "GitHub", Username := "bob", URL := "https://github.com/bob",
          Found := false, Status := 200, Reason := "not found marker present", Duration := "12" }
    ∧ probeJob unicodeExcerpt (Job.mk ⟨"GitHub", "https://github.com/%s", "Not Found"⟩ "bob")
        (.response 404 "" none) 12
      = { Site := "GitHub", Username := "bob", URL := "https://github.com/bob",
          Found := false, Status := 404, Reason := "not found", Duration := "12" } := by
  decide

/-- On the two error paths of `worker` (request construction, send) the result
has the site and handle of the job, `found=false`, status 0 and the text of the
error as reason. -/
theorem probeJob_error_paths (U : UnicodeData) (j : Job) (err : String) (elapsedMs : Int) :
    probeJob U j (.requestError err) elapsedMs
        = { Site := j.Site.Name, Username := j.Username,
            URL := sprintfS j.Site.UrlPattern j.Username,
            Found := false, Status := 0, Reason := err, Duration := "" }
      ∧ probeJob U j (.sendError err) elapsedMs
        = { Site := j.Site.Name, Username := j.Username,
            URL := sprintfS j.Site.UrlPattern j.Username,
            Found := false, Status := 0, Reason := err, Duration := "" } :=
  ⟨rfl, rfl⟩

/-- A worker sends one result per job it receives, the result of the `i`-th job
being that of its own probe alone: an error on one job neither stops the loop
nor changes another result. -/
theorem worker_one_result_per_job (U : UnicodeData) (work : List (Job × Probe × Int)) :
    worker U work = work.map (fun w => probeJob U w.1 w.2.1 w.2.2) := by
  induction work with
  | nil => rfl
  | cons w rest ih =>
      obtain ⟨j, p, t⟩ := w
      simp [worker, ih]

/-- Every result carries the key of its job, whatever the probe did. -/
theorem resultKey_probeJob (U : UnicodeData) (j : Job) (p : Probe) (elapsedMs : Int) :
    resultKey (probeJob U j p elapsedMs) = jobKey j := by
  cases p <;> rfl

/-- The error that `io.ReadAll` returns has no effect on the result. -/
theorem probeJob_ignores_read_error (U : UnicodeData) (j : Job) (StatusCode : Int)
    (bodyBytes : String) (readErr : Option String) (elapsedMs : Int) :
    probeJob U j (.response StatusCode bodyBytes readErr) elapsedMs
      = probeJob U j (.response StatusCode bodyBytes none) elapsedMs :=
  rfl

/-- C4, the code at the failing input: the response headers arrive with
status 200 and the read of the body then fails on the client timeout.  The
worker emits `found=true`, status 200 and an empty reason, where the claim asks
for `found=false`, status 0 and the text of the error. -/
theorem worker_body_read_timeout :
    probeJob unicodeExcerpt (Job.mk ⟨"GitHub", "https://github.com/%s", "Not Found"⟩ "bob")
        (.response 200 "<html><head><title>bob"
          (some "context deadline exceeded (Client.Timeout or context cancellation while reading body)"))
        10000
      = { Site := "GitHub", Username := "bob", URL := "https://github.com/bob",
          Found := true, Status := 200, Reason := "", Duration := "10000" } := by
  decide

/-- C9, the code at the failing input: the send fails after 42 ms, or the
request cannot be built because the handle puts a blank in the host name.  The
result has an empty `Duration`, where the same job with a response has `"42"`. -/
theorem worker_error_path_duration :
    (probeJob unicodeExcerpt (Job.mk ⟨"GitHub", "https://github.com/%s", "Not Found"⟩ "bob")
        (.sendError "Get \"https://github.com/bob\": dial tcp: lookup github.com: no such host")
        42).Duration = ""
    ∧ (probeJob unicodeExcerpt (Job.mk ⟨"Tumblr", "https://%s.tumblr.com", "There's nothing here."⟩ "a b")
        (.requestError "parse \"https://a b.tumblr.com\": invalid character \" \" in host name")
        0).Duration = ""
    ∧ (probeJob unicodeExcerpt (Job.mk ⟨"GitHub", "https://github.com/%s", "Not Found"⟩ "bob")
        (.response 200 "" none) 42).Duration = "42" := by
  decide

/-! ## Worker pool -/

/-- Replacing the state of one worker changes the keys in flight by the difference
of the two states. -/
theorem inFlight_set (l : List WorkerState) (w : Nat) (a b : WorkerState) (h : l[w]? = some a) :
    ((l.set w b).map inFlight).sum + inFlight a = (l.map inFlight).sum + inFlight b := by
  induction l generalizing w with
  | nil => simp at h
  | cons x xs ih =>
      cases w with
      | zero =>
          simp only [List.getElem?_cons_zero, Option.some.injEq] at h
          subst h
          simp only [List.set_cons_zero, List.map_cons, List.sum_cons]
          abel
      | succ n =>
          simp only [List.getElem?_cons_succ] at h
          have := ih n h
          simp only [List.set_cons_succ, List.map_cons, List.sum_cons]
          rw [add_assoc, this, add_assoc]

/-- Replacing the state of one worker changes the steps owed by the difference of
the two states. -/
theorem stepsOwed_set (l : List WorkerState) (w : Nat) (a b : WorkerState) (h : l[w]? = some a) :
    ((l.set w b).map stepsOwed).sum + stepsOwed a = (l.map stepsOwed).sum + stepsOwed b := by
  induction l generalizing w with
  | nil => simp at h
  | cons x xs ih =>
      cases w with
      | zero =>
          simp only [List.getElem?_cons_zero, Option.some.injEq] at h
          subst h
          simp only [List.set_cons_zero, List.map_cons, List.sum_cons]
          omega
      | succ n =>
          simp only [List.getElem?_cons_succ] at h
          have := ih n h
          simp only [List.set_cons_succ, List.map_cons, List.sum_cons]
          omega

/-- What an enabled event does, case by case. -/
theorem step_cases (U : UnicodeData) (s s' : Pool) (e : Event) (h : step U s e = some s') :
    (∃ w j rest, e = .recv w ∧ s.jobs = j :: rest ∧ s.workers[w]? = some .idle
        ∧ s' = { s with jobs := rest, workers := s.workers.set w (.busy j) })
    ∨ (∃ w p t j, e = .emit w p t ∧ s.workers[w]? = some (.busy j)
        ∧ s' = { s with workers := s.workers.set w .idle,
                        resList := s.resList ++ [probeJob U j p t] })
    ∨ (∃ w, e = .exit w ∧ s.jobs = [] ∧ s.workers[w]? = some .idle
        ∧ s' = { s with workers := s.workers.set w .exited }) := by
  cases e with
  | recv w =>
      left
      simp only [step] at h
      split at h
      · rename_i j rest hj hw
        exact ⟨w, j, rest, rfl, hj, hw, (Option.some.inj h).symm⟩
      · exact absurd h (by simp)
  | emit w p t =>
      right; left
      simp only [step] at h
      split at h
      · rename_i j hw
        exact ⟨w, p, t, j, rfl, hw, (Option.some.inj h).symm⟩
      · exact absurd h (by simp)
  | exit w =>
      right; right
      simp only [step] at h
      split at h
      · rename_i hj hw
        exact ⟨w, rfl, hj, hw, (Option.some.inj h).symm⟩
      · exact absurd h (by simp)

/-- No communication loses or duplicates a job: the ledger is unchanged. -/
theorem step_ledger (U : UnicodeData) (s s' : Pool) (e : Event) (h : step U s e = some s') :
    ledger s' = ledger s := by
  rcases step_cases U s s' e h with ⟨w, j, rest, -, hj, hw, rfl⟩ | ⟨w, p, t, j, -, hw, rfl⟩ |
    ⟨w, -, hj, hw, rfl⟩
  · have := inFlight_set s.workers w .idle (.busy j) hw
    simp only [inFlight, add_zero] at this
    simp only [ledger, hj, this, List.map_cons, ← Multiset.cons_coe, ← Multiset.singleton_add]
    abel
  · have := inFlight_set s.workers w (.busy j) .idle hw
    simp only [inFlight, add_zero] at this
    simp only [ledger, ← this, List.map_append, List.map_cons, List.map_nil, resultKey_probeJob,
      ← Multiset.coe_add, ← Multiset.cons_coe, ← Multiset.singleton_add, Multiset.coe_nil,
      add_zero]
    abel
  · have := inFlight_set s.workers w .idle .exited hw
    simp only [inFlight, add_zero] at this
    simp only [ledger, this]

/-- Every communication uses up fuel, so no execution goes on for ever. -/
theorem step_fuel (U : UnicodeData) (s s' : Pool) (e : Event) (h : step U s e = some s') :
    fuel s' < fuel s := by
  rcases step_cases U s s' e h with ⟨w, j, rest, -, hj, hw, rfl⟩ | ⟨w, p, t, j, -, hw, rfl⟩ |
    ⟨w, -, hj, hw, rfl⟩
  · have := stepsOwed_set s.workers w .idle (.busy j) hw
    simp only [stepsOwed] at this
    simp only [fuel, hj, List.length_cons]
    omega
  · have := stepsOwed_set s.workers w (.busy j) .idle hw
    simp only [stepsOwed] at this
    simp only [fuel]
    omega
  · have := stepsOwed_set s.workers w .idle .exited hw
    simp only [stepsOwed] at this
    simp only [fuel]
    omega


/-- A worker state found after an update is the new one or was there before. -/
theorem mem_set_cases (l : List WorkerState) (w : Nat) (b x : WorkerState)
    (h : x ∈ l.set w b) : x = b ∨ x ∈ l := by
  rcases List.mem_or_eq_of_mem_set h with h | h
  · exact Or.inr h
  · exact Or.inl h

/-- Workers exit only once the dispatcher has sent everything. -/
theorem step_closedIfExited (U : UnicodeData) (s s' : Pool) (e : Event)
    (h : step U s e = some s') (inv : closedIfExited s) : closedIfExited s' := by
  rcases step_cases U s s' e h with ⟨w, j, rest, -, hj, hw, rfl⟩ | ⟨w, p, t, j, -, hw, rfl⟩ |
    ⟨w, -, hj, hw, rfl⟩
  · intro hx
    rcases mem_set_cases _ _ _ _ hx with hx | hx
    · cases hx
    · have := inv hx
      rw [hj] at this
      cases this
  · intro hx
    rcases mem_set_cases _ _ _ _ hx with hx | hx
    · cases hx
    · exact inv hx
  · intro _
    exact hj

/-- No communication starts or removes a worker. -/
theorem step_workers_length (U : UnicodeData) (s s' : Pool) (e : Event)
    (h : step U s e = some s') : s'.workers.length = s.workers.length := by
  rcases step_cases U s s' e h with ⟨w, j, rest, -, hj, hw, rfl⟩ | ⟨w, p, t, j, -, hw, rfl⟩ |
    ⟨w, -, hj, hw, rfl⟩ <;> simp

/-- The three invariants along a whole execution. -/
theorem exec_invariants (U : UnicodeData) (es : List Event) (s s' : Pool)
    (h : exec U s es = some s') (inv : closedIfExited s) :
    ledger s' = ledger s ∧ closedIfExited s' ∧ s'.workers.length = s.workers.length
      ∧ fuel s' + es.length ≤ fuel s := by
  induction es generalizing s with
  | nil =>
      simp only [exec, Option.some.injEq] at h
      subst h
      exact ⟨rfl, inv, rfl, by simp⟩
  | cons e es ih =>
      simp only [exec] at h
      cases hs : step U s e with
      | none => simp [hs] at h
      | some s1 =>
          simp only [hs] at h
          obtain ⟨h1, h2, h3, h4⟩ := ih s1 h (step_closedIfExited U s s1 e hs inv)
          refine ⟨by rw [h1, step_ledger U s s1 e hs], h2, by rw [h3, step_workers_length U s s1 e hs], ?_⟩
          have := step_fuel U s s1 e hs
          simp only [List.length_cons]
          omega

/-- When every worker has exited no job is in flight. -/
theorem inFlight_sum_finished (l : List WorkerState)
    (h : l.all (fun w => decide (w = .exited)) = true) : (l.map inFlight).sum = 0 := by
  induction l with
  | nil => rfl
  | cons x xs ih =>
      simp only [List.all_cons, Bool.and_eq_true, decide_eq_true_eq] at h
      obtain ⟨hx, hxs⟩ := h
      subst hx
      simp only [List.map_cons, List.sum_cons, inFlight, zero_add]
      exact ih hxs

/-- Freshly started workers hold no job. -/
theorem inFlight_sum_replicate (n : Nat) :
    ((List.replicate n WorkerState.idle).map inFlight).sum = 0 := by
  induction n with
  | zero => rfl
  | succ n ih => simp [List.replicate_succ, inFlight, ih]

/-- From any state the run can be brought to its end: some worker is not
exited and then one of the three events is enabled for it, and `fuel` bounds the
number of events. -/
theorem exec_can_finish (U : UnicodeData) (n : Nat) :
    ∀ s : Pool, fuel s ≤ n → ∃ es s', exec U s es = some s' ∧ finished s' = true := by
  induction n with
  | zero =>
      intro s hs
      by_cases hf : finished s = true
      · exact ⟨[], s, rfl, hf⟩
      · exfalso
        apply hf
        unfold finished
        rw [List.all_eq_true]
        intro w hw
        have hle : stepsOwed w ≤ (s.workers.map stepsOwed).sum :=
          List.single_le_sum (fun _ _ => Nat.zero_le _) _ (List.mem_map_of_mem _ hw)
        have : (s.workers.map stepsOwed).sum = 0 := by
          unfold fuel at hs
          omega
        cases w <;> simp [stepsOwed] at hle ⊢ <;> omega
  | succ n ih =>
      intro s hs
      by_cases hf : finished s = true
      · exact ⟨[], s, rfl, hf⟩
      · have : ∃ (w : Nat) (ws : WorkerState), s.workers[w]? = some ws ∧ ws ≠ WorkerState.exited := by
          unfold finished at hf
          rw [List.all_eq_true] at hf
          push_neg at hf
          obtain ⟨ws, hmem, hne⟩ := hf
          obtain ⟨w, hw⟩ := List.getElem?_of_mem hmem
          exact ⟨w, ws, hw, by simpa using hne⟩
        obtain ⟨w, ws, hw, hne⟩ := this
        have hstep : ∃ e, (step U s e).isSome = true := by
          cases ws with
          | exited => exact absurd rfl hne
          | busy j =>
              exact ⟨Event.emit w (Probe.sendError "") 0, by simp [step, hw]⟩
          | idle =>
              cases hj : s.jobs with
              | nil => exact ⟨Event.exit w, by simp [step, hw, hj]⟩
              | cons j rest => exact ⟨Event.recv w, by simp [step, hw, hj]⟩
        obtain ⟨e, he⟩ := hstep
        obtain ⟨s1, he⟩ := Option.isSome_iff_exists.mp he
        have hlt := step_fuel U s s1 e he
        obtain ⟨es, s', hex, hfin⟩ := ih s1 (by omega)
        exact ⟨e :: es, s', by simp [exec, he, hex], hfin⟩

/-- C3, as stated, fails for a worker count of zero: no worker is started,
`wg.Wait()` returns at once and the run ends with an empty `resList`, although
the dispatcher has thirty jobs to send. -/
theorem runUsernameSearch_no_workers :
    (runUsernameSearch unicodeExcerpt "bob" 0 "results.json" false [] none none).map
        (fun run => run.resList.length) = some 0
      ∧ (dispatch unicodeExcerpt sites "bob" false).length = 30 := by
  decide

/-- C3 (amended): for every run of `runUsernameSearch` with a non-empty handle
and a worker count of at least one, a run to completion exists, and whatever
the order of the communications (so whatever the order in which workers
finish) the collected `resList` has exactly one result per dispatched job and
no others: the multiset of `(site name, handle)` pairs of the results equals
that of the dispatched jobs, so it has `R` entries with `alternative` off and
`2R` with it on (`R` the size of the registry); and no run has more
communications than the fuel of the initial state. -/
theorem runUsernameSearch_results (U : UnicodeData) (username : String) (concurrency : Int)
    (output : String) (alternative : Bool) (createErr encodeErr : Option String)
    (hname : username ≠ "") (hconc : 1 ≤ concurrency) :
    (∃ schedule run,
        runUsernameSearch U username concurrency output alternative schedule createErr encodeErr
          = some run)
      ∧ ∀ schedule run,
          runUsernameSearch U username concurrency output alternative schedule createErr encodeErr
            = some run →
          (run.resList.map resultKey : Multiset (String × String))
              = ((dispatch U sites username alternative).map jobKey : Multiset (String × String))
            ∧ run.resList.length = (if alternative then 2 * sites.length else sites.length)
            ∧ schedule.length ≤ fuel (initPool U username concurrency alternative) := by
  have hinit : closedIfExited (initPool U username concurrency alternative) := by
    intro hx
    have := (List.mem_replicate.mp hx).2
    cases this
  constructor
  · obtain ⟨es, s', hex, hfin⟩ :=
      exec_can_finish U _ (initPool U username concurrency alternative) (le_refl _)
    refine ⟨es, { resList := s'.resList,
                  console := report U s'.resList username output alternative createErr encodeErr,
                  exitCode := 0 }, ?_⟩
    simp [runUsernameSearch, hname, hex, hfin]
  · intro schedule run hrun
    simp only [runUsernameSearch, hname, if_false] at hrun
    cases hex : exec U (initPool U username concurrency alternative) schedule with
    | none => simp [hex] at hrun
    | some s =>
        simp only [hex] at hrun
        by_cases hfin : finished s = true
        · simp only [hfin, if_true, Option.some.injEq] at hrun
          subst hrun
          obtain ⟨hled, hclosed, hlen, hfuel⟩ := exec_invariants U schedule _ s hex hinit
          have hn : 0 < s.workers.length := by
            rw [hlen]
            simp only [initPool, List.length_replicate]
            omega
          have hexited : WorkerState.exited ∈ s.workers := by
            have hmem : s.workers[0] ∈ s.workers := List.getElem_mem hn
            have hall := hfin
            unfold finished at hall
            rw [List.all_eq_true] at hall
            have := hall _ hmem
            simp only [decide_eq_true_eq] at this
            rw [← this]
            exact hmem
          have hjobs : s.jobs = [] := hclosed hexited
          have hkeys : (s.resList.map resultKey : Multiset (String × String))
              = ((dispatch U sites username alternative).map jobKey : Multiset (String × String)) := by
            have h1 : ledger s = (s.resList.map resultKey : Multiset (String × String)) := by
              simp [ledger, hjobs, inFlight_sum_finished s.workers hfin]
            have h2 : ledger (initPool U username concurrency alternative)
                = ((dispatch U sites username alternative).map jobKey : Multiset (String × String)) := by
              simp only [ledger, initPool, inFlight_sum_replicate, List.map_nil, Multiset.coe_nil,
                zero_add, add_zero]
            rw [← h1, hled, h2]
          refine ⟨hkeys, ?_, by omega⟩
          have hcard := congrArg Multiset.card hkeys
          simp only [Multiset.coe_card, List.length_map] at hcard
          rw [hcard]
          exact (dispatch_eq U sites username alternative).2
        · simp [hfin] at hrun

/-- C3 (amended), at the handle `bob` with two workers and `alternative` on. -/
theorem runUsernameSearch_results_witness :
    ("bob" ≠ "" ∧ (1 : Int) ≤ 2)
    ∧ ((∃ schedule run,
        runUsernameSearch unicodeExcerpt "bob" 2 "results.json" true schedule none none
          = some run)
      ∧ ∀ schedule run,
          runUsernameSearch unicodeExcerpt "bob" 2 "results.json" true schedule none none
            = some run →
          (run.resList.map resultKey : Multiset (String × String))
              = ((dispatch unicodeExcerpt sites "bob" true).map jobKey : Multiset (String × String))
            ∧ run.resList.length = (if true then 2 * sites.length else sites.length)
            ∧ schedule.length ≤ fuel (initPool unicodeExcerpt "bob" 2 true)) :=
  ⟨⟨by decide, by decide⟩,
    runUsernameSearch_results unicodeExcerpt "bob" 2 "results.json" true none none
      (by decide) (by decide)⟩

/-! ## Reporter -/

/-- The loop of lines 236–240 started from any map: the entry of `u` is
untouched while no result is a found account of `u`, and afterwards holds the
old lines followed by one line per found result of `u`, in the order of the
list. -/
theorem foundAccounts_fold (rs : List Result) (m : String → Option (List String)) (u : String) :
    (rs.foldl
        (fun m r =>
          if r.Found then
            fun k => if k = r.Username then some ((m r.Username).getD [] ++ [accountLine r]) else m k
          else m)
        m) u
      = if rs.filter (fun r => r.Found && decide (r.Username = u)) = [] then m u
        else some ((m u).getD []
              ++ (rs.filter (fun r => r.Found && decide (r.Username = u))).map accountLine) := by
  induction rs generalizing m with
  | nil => simp
  | cons r rs ih =>
      rw [List.foldl_cons, ih]
      by_cases hf : r.Found = true
      · by_cases hu : r.Username = u
        · subst hu
          by_cases he : rs.filter (fun x => x.Found && decide (x.Username = r.Username)) = []
          · simp [hf, he, List.filter_cons]
          · simp [hf, he, List.filter_cons]
        · have hu' : ¬ u = r.Username := fun h => hu h.symm
          simp [hf, hu, hu', List.filter_cons]
      · simp [hf, List.filter_cons]

/-- The map `foundAccounts` at a username. -/
theorem foundAccounts_eq (rs : List Result) (u : String) :
    foundAccounts rs u
      = if rs.filter (fun r => r.Found && decide (r.Username = u)) = [] then none
        else some ((rs.filter (fun r => r.Found && decide (r.Username = u))).map accountLine) := by
  unfold foundAccounts
  rw [foundAccounts_fold]
  simp

/-- Padding keeps the text and adds blanks after it. -/
theorem padRight12_eq (s : String) :
    padRight12 s = s ++ String.mk (List.replicate (12 - s.length) ' ') := by
  cases s
  rfl

/-- The reporter on the path where `os.Create` succeeds: the console report is
the banner and heading, then the section of the primary handle, then (when
`alternative` is requested) the section of `InvertCase` of it, then the closing
line; and for every handle `u` the section of `u` is the "No accounts found"
message if and only if no result has `found=true` and username `u`, and
otherwise a heading followed by exactly one line per result with `found=true`
and username `u`, in the order of `resList` (arrival order), each made of that
result's site and URL.  Results with `found=false` or another username give no
line. -/
theorem reporter_summary (U : UnicodeData) (resList : List Result) (username output : String)
    (alternative : Bool) (encodeErr : Option String) :
    report U resList username output alternative none encodeErr
        = [banner, "Made By HeJo\n",
            "Searching for usernames: "
              ++ ", ".intercalate (usernamesToDisplay U username alternative) ++ "\n"]
          ++ summarySection (foundAccounts resList) username
          ++ (if alternative then summarySection (foundAccounts resList) (InvertCase U username)
              else [])
          ++ ["\nAll results have been saved to '" ++ output ++ "'.\n"]
      ∧ ∀ u : String,
          ((∀ r ∈ resList, ¬ (r.Found = true ∧ r.Username = u)) →
            summarySection (foundAccounts resList) u = ["\nNo accounts found for '" ++ u ++ "'.\n"])
          ∧ (¬ (∀ r ∈ resList, ¬ (r.Found = true ∧ r.Username = u)) →
            summarySection (foundAccounts resList) u
              = ("\nAccounts found for '" ++ u ++ "':\n")
                :: (resList.filter (fun r => r.Found && decide (r.Username = u))).map
                    (fun r =>
                      "- " ++ (r.Site ++ String.mk (List.replicate (12 - r.Site.length) ' '))
                        ++ " " ++ r.URL ++ "\n")) := by
  constructor
  · cases alternative <;> simp [report, usernamesToDisplay, summary]
  · intro u
    have hempty : resList.filter (fun r => r.Found && decide (r.Username = u)) = []
        ↔ ∀ r ∈ resList, ¬ (r.Found = true ∧ r.Username = u) := by
      simp [List.filter_eq_nil_iff]
    have hline : ∀ r : Result, accountLine r ++ "\n"
        = "- " ++ (r.Site ++ String.mk (List.replicate (12 - r.Site.length) ' '))
            ++ " " ++ r.URL ++ "\n" := by
      intro r
      rw [accountLine, padRight12_eq]
    constructor
    · intro h
      simp only [summarySection, foundAccounts_eq, hempty.mpr h, if_true]
    · intro h
      have hne : ¬ resList.filter (fun r => r.Found && decide (r.Username = u)) = [] :=
        fun he => h (hempty.mp he)
      simp only [summarySection, foundAccounts_eq, hne, if_false, List.map_map]
      exact congrArg _ (List.map_congr_left (fun r _ => hline r))

/-- C8, the code at the failing input: `os.Create` fails and the reporter
returns before the summary.  With thirty results that have `found=true` and
username `bob` no account line is printed, and with none (every site answers
404) the "No accounts found" message is not printed, which the same run prints
when the file is created. -/
theorem reporter_create_failure_sections :
    (runUsernameSearch unicodeExcerpt "bob" 1 "/nonexistent/results.json" false
        (oneWorkerSchedule (.response 200 "" none) 5 30)
        (some "open /nonexistent/results.json: no such file or directory") none).map
        (fun run =>
          ((run.resList.filter (fun r => r.Found && decide (r.Username = "bob"))).length,
            run.console))
      = some (30,
          ["Could not create file: open /nonexistent/results.json: no such file or directory\n"])
    ∧ (runUsernameSearch unicodeExcerpt "bob" 1 "/nonexistent/results.json" false
        (oneWorkerSchedule (.response 404 "" none) 5 30)
        (some "open /nonexistent/results.json: no such file or directory") none).map
        (fun run =>
          ((run.resList.filter (fun r => r.Found && decide (r.Username = "bob"))).length,
            run.console))
      = some (0,
          ["Could not create file: open /nonexistent/results.json: no such file or directory\n"])
    ∧ (runUsernameSearch unicodeExcerpt "bob" 1 "/nonexistent/results.json" false
        (oneWorkerSchedule (.response 404 "" none) 5 30) none none).map
        (fun run => run.console.drop 3)
      = some ["\nNo accounts found for 'bob'.\n",
          "\nAll results have been saved to '/nonexistent/results.json'.\n"] := by
  refine ⟨by decide, by decide, by decide⟩

/-- C7, the code at the failing input: one worker, every site answers 200 with
an empty body (thirty found accounts), and `os.Create` fails.  The console holds
the failure line and nothing else; the same run with the file created prints the
section "Accounts found for 'bob'" with its account lines.  When it is the write
that fails, the console is that of a run without failure: nothing is reported. -/
theorem runUsernameSearch_create_failure :
    (runUsernameSearch unicodeExcerpt "bob" 1 "/nonexistent/results.json" false
        (oneWorkerSchedule (.response 200 "" none) 5 30)
        (some "open /nonexistent/results.json: no such file or directory") none).map
        (fun run => (run.resList.length, run.console))
      = some (30,
          ["Could not create file: open /nonexistent/results.json: no such file or directory\n"])
    ∧ (runUsernameSearch unicodeExcerpt "bob" 1 "/nonexistent/results.json" false
        (oneWorkerSchedule (.response 200 "" none) 5 30) none none).map
        (fun run => (run.resList.length, (run.console.drop 3).take 3))
      = some (30,
          ["\nAccounts found for 'bob':\n", "- Facebook     https://www.facebook.com/bob\n",
            "- Twitter      https://twitter.com/bob\n"])
    ∧ runUsernameSearch unicodeExcerpt "bob" 1 "/dev/full" false
        (oneWorkerSchedule (.response 200 "" none) 5 30) none
        (some "write /dev/full: no space left on device")
      = runUsernameSearch unicodeExcerpt "bob" 1 "/dev/full" false
        (oneWorkerSchedule (.response 200 "" none) 5 30) none none := by
  refine ⟨by decide, by decide, rfl⟩

/-! ## Word-set similarity -/

end NaT
